import Mathlib

set_option autoImplicit false

/-!
Verification development for `automail.py`, a program that renders a text
template into an email message (headers + body) and sends it over SMTP.

Python strings are embedded as Lean `String`s; the Python string operations
the program uses (`split`, `strip`, `join`, `lower`) are embedded as
functions on `List Char` / `String`. Python `dict`s (insertion-ordered) are
embedded as association lists with Python's update-in-place/append
semantics. Exceptions are embedded with `Option`/`Except`.
-/

namespace Automail

/-- Helper for `splitOnChar`: returns the fragment up to the first
occurrence of `c` and the list of fragments after it. -/
def splitOnCharAux (c : Char) : List Char → List Char × List (List Char)
  | [] => ([], [])
  | x :: xs =>
    if x = c then ([], (splitOnCharAux c xs).1 :: (splitOnCharAux c xs).2)
    else (x :: (splitOnCharAux c xs).1, (splitOnCharAux c xs).2)

/-- Python `s.split(c)` for a one-character separator `c`: the fragments of
`l` between occurrences of `c`. The result always has exactly one more
element than the number of occurrences of `c` in `l`; in particular it is
never empty, and `''.split(c) = ['']`. -/
def splitOnChar (c : Char) (l : List Char) : List (List Char) :=
  (splitOnCharAux c l).1 :: (splitOnCharAux c l).2

/-- Python `sep.join(parts)` for a one-character separator. -/
def joinChar (c : Char) : List (List Char) → List Char
  | [] => []
  | [x] => x
  | x :: y :: xs => x ++ c :: joinChar c (y :: xs)

/-- The characters Python `str.strip()` removes (ASCII whitespace). -/
def isPySpace (ch : Char) : Bool :=
  ch == ' ' || ch == '\t' || ch == '\n' || ch == '\r' || ch == '\x0b' || ch == '\x0c'

/-- Python `str.strip()`: drop leading and trailing whitespace. -/
def pyStrip (l : List Char) : List Char :=
  ((l.dropWhile isPySpace).reverse.dropWhile isPySpace).reverse

/-- Python dict assignment `d[k] = v` on an insertion-ordered association
list: if `k` is already a key its value is updated in place, otherwise the
pair is appended at the end. -/
def dictInsert (d : List (String × String)) (k v : String) : List (String × String) :=
  if d.any (fun p => p.1 = k) then
    d.map (fun p => if p.1 = k then (k, v) else p)
  else d ++ [(k, v)]

/-- Python `msg.split('\n')` on a Lean `String`. -/
def pySplitLines (msg : String) : List String :=
  (splitOnChar '\n' msg.data).map String.mk

/-- The header loop of `parse_message` (`for line in lines: ...`):
threads the header dict `hdrs` and the counter `index` (initially `1`,
incremented once per processed header line), stops at the first empty
line. `key, val = line.split(':')` raises `ValueError` unless the split
has exactly two parts, i.e. unless the line contains exactly one colon;
that exception is embedded as `none`. -/
def parseLoop : List String → List (String × String) → Nat →
    Option (List (String × String) × Nat)
  | [], hdrs, index => some (hdrs, index)
  | line :: rest, hdrs, index =>
    if line = "" then some (hdrs, index)
    else
      match splitOnChar ':' line.data with
      | [key, val] => parseLoop rest (dictInsert hdrs ⟨pyStrip key⟩ ⟨pyStrip val⟩) (index + 1)
      | _ => none

/-- Function `parse_message` (automail.py lines 209-227): split the message on
newlines, read `Key: Value` header lines up to the first empty line, and
join the remaining lines back with newlines as the body. -/
def parse_message (msg : String) : Option (List (String × String) × String) :=
  let lines := pySplitLines msg
  match parseLoop lines [] 1 with
  | none => none
  | some (hdrs, index) => some (hdrs, ⟨joinChar '\n' ((lines.drop index).map String.data)⟩)

/-- The header block of a message: the lines before the first empty line. -/
def headerBlock (msg : String) : List String :=
  (pySplitLines msg).takeWhile (fun l => l ≠ "")

/-- Serialization used by the round-trip property: one `"Key: Value\n"`
line per header entry, then a blank line, then the body. -/
def serializeMessage (hdrs : List (String × String)) (body : String) : String :=
  ⟨(hdrs.map fun p => p.1.data ++ ':' :: ' ' :: p.2.data ++ ['\n']).flatten ++ '\n' :: body.data⟩

/-- The `valid` answers dict of `yes_no` (automail.py lines 45-50). -/
def validAnswer : String → Option Bool
  | "yes" => some true
  | "y" => some true
  | "no" => some false
  | "n" => some false
  | _ => none

/-- How a call to `yes_no` can fail to return a Bool: `ValueError` for an
invalid default, or the user never supplying a usable answer (the
`while True` loop never returns). -/
inductive YNErr where
  | valueError
  | noInput
  deriving DecidableEq, Repr

/-- Prompt selection of `yes_no` (lines 52-59): accepts `None`, `"yes"`,
`"no"` and raises `ValueError` for any other default. -/
def ynPrompt : Option String → Except YNErr String
  | none => .ok "[y/n]"
  | some "yes" => .ok "[Y/n]"
  | some "no" => .ok "[y/N]"
  | some _ => .error .valueError

/-- Python `str.lower()` (ASCII inputs): lowercase every character. -/
def pyLower (s : String) : String :=
  ⟨s.data.map Char.toLower⟩

/-- The `while True` loop of `yes_no` (lines 61-67), reading successive
user inputs from `inputs`: lowercase the input; an empty input with a
default present returns `valid[default]`; a recognized token returns its
value; anything else re-prompts. -/
def ynLoop (default : Option String) : List String → Except YNErr Bool
  | [] => .error .noInput
  | c :: rest =>
    let choice := pyLower c
    if default.isSome ∧ choice = "" then
      match validAnswer (default.getD "") with
      | some b => .ok b
      | none => .error .valueError
    else
      match validAnswer choice with
      | some b => .ok b
      | none => ynLoop default rest

/-- Function `yes_no` (automail.py lines 41-67) as a function of the default answer
and the stream of user inputs. -/
def yes_no (default : Option String) (inputs : List String) : Except YNErr Bool :=
  match ynPrompt default with
  | .error e => .error e
  | .ok _ => ynLoop default inputs

/-- The exceptions that can escape `edit_template`. -/
inductive EditErr where
  | calledProcessError
  | readError
  deriving DecidableEq, Repr

/-- Result of a call to `edit_template`: the returned text (or the
exception that escaped), plus whether the temporary file has been removed
when control leaves the function. -/
structure EditResult where
  output : Except EditErr String
  tmpRemoved : Bool
  deriving Repr

/-- Function `edit_template` (automail.py lines 160-179). The `with` block creates
the temporary file with `delete=False` and writes `template` into it;
`subprocess.check_call` runs the editor on it (exit status `editorExit`,
raising `CalledProcessError` when non-zero); the file is then re-read
(succeeding iff `readOk`, yielding `edit template`, the user-edited
contents); only after the successful read does `os.remove(path)` run. An
exception propagates immediately, skipping the statements after it. -/
def edit_template (template : String) (editorExit : Nat) (readOk : Bool)
    (edit : String → String) : EditResult :=
  if editorExit ≠ 0 then ⟨.error .calledProcessError, false⟩
  else if !readOk then ⟨.error .readError, false⟩
  else ⟨.ok (edit template), true⟩

/-- Function `add_signature` (lines 244-249): append a newline and the signature
file contents to the message. -/
def add_signature (sigText msg : String) : String :=
  msg ++ "\n" ++ sigText

/-- The missing-variables computation of `main` (automail.py line 293):
`tmpl_vars - set(args.jinja_vars.keys())` on Python sets. -/
def missingVarsSets (tmplVars cliKeys : Finset String) : Finset String :=
  tmplVars \ cliKeys

/-- Line 293 applied to the CLI mapping itself: difference of the template
variable set and the mapping's key set. -/
def missingVars (tmplVars : Finset String) (jinjaVars : List (String × String)) :
    Finset String :=
  missingVarsSets tmplVars (jinjaVars.map Prod.fst).toFinset

/-- A jinja2 template restricted to what automail uses: literal text
interleaved with variable interpolation points (`{{ name }}`). -/
inductive Chunk where
  | lit (s : String)
  | var (name : String)

/-- Python dict lookup on an association list (keys are unique, so the
first match is the match). -/
def dictFind (m : List (String × String)) (k : String) : Option String :=
  (m.find? (fun p => p.1 = k)).map Prod.snd

/-- jinja2 rendering against a variable mapping. With jinja2's default
`Undefined`, a variable absent from the mapping renders as the empty
string. -/
def renderTemplate (t : List Chunk) (m : List (String × String)) : String :=
  ⟨(t.map fun c => match c with
      | .lit s => s.data
      | .var n => ((dictFind m n).getD "").data).flatten⟩

/-- The placeholder value `"{{{{ {} }}}}".format(var)` that `main` assigns
to each missing variable (automail.py line 312): the literal text
`{{ var }}` - the variable's own jinja2 syntax. -/
def placeholderValue (v : String) : String :=
  "\x7b\x7b " ++ v ++ " \x7d\x7d"

/-- The interactive placeholder loop of `main` (lines 311-312):
`for var in missing_vars: args.jinja_vars[var] = "{{{{ {} }}}}".format(var)`. -/
def assignPlaceholders (jinjaVars : List (String × String)) (missing : List String) :
    List (String × String) :=
  missing.foldl (fun m v => dictInsert m v (placeholderValue v)) jinjaVars

/-- The observable effects of a `main` run, in order. -/
inductive Event where
  | printed (s : String)
  | editorInvoked (s : String)
  | yesNoInvoked (question default : String)
  | sent
  deriving DecidableEq, Repr

/-- How a `main` run ends. `sys.exit(main())` maps a plain `return` to
exit status 0 and `return 1` to exit status 1; an uncaught exception
(`crash`) terminates with a non-zero status; `hang` is a read of user
input that never gets an answer. -/
inductive Outcome where
  | exit (code : Nat)
  | crash
  | hang
  deriving DecidableEq, Repr

/-- The command-line arguments of `main` that drive the message pipeline.
`signature` is the truthiness of `args.signature` (a signature path was
supplied); `jinja_vars` is the insertion-ordered dict collected from the
positional `key=value` arguments. -/
structure Args where
  list : Bool
  noninteractive : Bool
  dryrun : Bool
  signature : Bool
  jinja_vars : List (String × String)

/-- The tail of `main` (lines 325-336): parse the message into headers
and content, build the `email.message.EmailMessage`, and unless dry-run
hand it to `send_message` (which succeeds iff `smtpOk`). The `ValueError`
escaping `parse_message` on a malformed header line crashes the run. -/
def composeAndSend (args : Args) (smtpOk : Bool) (message : String)
    (ev : List Event) : Outcome × List Event :=
  match parse_message message with
  | none => (.crash, ev)
  | some _ =>
    if !args.dryrun then
      if smtpOk then (.exit 0, ev ++ [Event.sent])
      else (.crash, ev ++ [Event.sent])
    else (.exit 0, ev)

/-- The text handed to the editor in interactive mode (lines 311-318):
the template rendered against the CLI variables extended with a
placeholder per missing variable, plus the optional signature. Python
iterates the `missing_vars` set in an unspecified order; the model fixes
the sorted order (assignments to distinct keys commute, so any order
yields the same mapping up to entry order). -/
def interactiveDraft (args : Args) (tmplVars : Finset String) (tmpl : List Chunk)
    (sigText : String) : String :=
  let vars := assignPlaceholders args.jinja_vars
    ((missingVars tmplVars args.jinja_vars).sort (· ≤ ·))
  if args.signature then add_signature sigText (renderTemplate tmpl vars)
  else renderTemplate tmpl vars

/-- Function `main` from the list-mode check onward (automail.py lines 288-336),
as a function of the parsed arguments, the template's undeclared-variable
set, the template, the signature file contents, the editor's behaviour
(exit status, readability of the edited file, the user's edit), the
stream of confirmation answers and the SMTP outcome. Returns the process
outcome and the ordered effects. -/
def mainRun (args : Args) (tmplVars : Finset String) (tmpl : List Chunk)
    (sigText : String) (editorExit : Nat) (readOk : Bool) (edit : String → String)
    (ynInputs : List String) (smtpOk : Bool) : Outcome × List Event :=
  if args.list then
    (.exit 0, [.printed ("Undefined template variables: " ++
      String.intercalate ", " (tmplVars.sort (· ≤ ·)))])
  else
    let missing := missingVars tmplVars args.jinja_vars
    if args.noninteractive then
      if missing.Nonempty then (.exit 1, [])
      else
        let message :=
          if args.signature then add_signature sigText (renderTemplate tmpl args.jinja_vars)
          else renderTemplate tmpl args.jinja_vars
        let ev := if args.dryrun then [Event.printed message] else []
        composeAndSend args smtpOk message ev
    else
      let pre := interactiveDraft args tmplVars tmpl sigText
      match (edit_template pre editorExit readOk edit).output with
      | .error _ => (.crash, [.editorInvoked pre])
      | .ok message =>
        let ev := [Event.editorInvoked pre, Event.printed message]
        if !args.dryrun then
          let ev := ev ++ [Event.yesNoInvoked "\nDo you really want to send the message?" "no"]
          match yes_no (some "no") ynInputs with
          | .error .noInput => (.hang, ev)
          | .error .valueError => (.crash, ev)
          | .ok false => (.exit 0, ev)
          | .ok true => composeAndSend args smtpOk message ev
        else composeAndSend args smtpOk message ev

/-! ### Lemmas about the embedded Python string operations -/

theorem splitOnChar_ne_nil (c : Char) (l : List Char) : splitOnChar c l ≠ [] := by
  simp [splitOnChar]

theorem splitOnCharAux_of_not_mem {c : Char} {l : List Char} (h : c ∉ l) :
    splitOnCharAux c l = (l, []) := by
  induction l with
  | nil => rfl
  | cons x xs ih =>
    simp only [List.mem_cons, not_or] at h
    simp [splitOnCharAux, if_neg (Ne.symm h.1), ih h.2]

theorem splitOnChar_of_not_mem {c : Char} {l : List Char} (h : c ∉ l) :
    splitOnChar c l = [l] := by
  simp [splitOnChar, splitOnCharAux_of_not_mem h]

theorem splitOnCharAux_append {c : Char} {a : List Char} (b : List Char) (h : c ∉ a) :
    splitOnCharAux c (a ++ c :: b) = (a, splitOnChar c b) := by
  induction a with
  | nil => simp [splitOnCharAux, splitOnChar]
  | cons x xs ih =>
    simp only [List.mem_cons, not_or] at h
    simp [splitOnCharAux, if_neg (Ne.symm h.1), ih h.2]

theorem splitOnChar_append {c : Char} {a : List Char} (b : List Char) (h : c ∉ a) :
    splitOnChar c (a ++ c :: b) = a :: splitOnChar c b := by
  simp [splitOnChar, splitOnCharAux_append b h]

theorem joinChar_splitOnChar (c : Char) (l : List Char) :
    joinChar c (splitOnChar c l) = l := by
  induction l with
  | nil => rfl
  | cons x xs ih =>
    rcases haux : splitOnCharAux c xs with ⟨h1, t⟩
    simp only [splitOnChar, haux] at ih
    by_cases hx : x = c
    · subst hx
      have hs : splitOnChar x (x :: xs) = [] :: h1 :: t := by
        simp [splitOnChar, splitOnCharAux, haux]
      rw [hs]
      show x :: joinChar x (h1 :: t) = x :: xs
      rw [ih]
    · have hs : splitOnChar c (x :: xs) = (x :: h1) :: t := by
        simp [splitOnChar, splitOnCharAux, if_neg hx, haux]
      rw [hs]
      cases t with
      | nil =>
        show x :: h1 = x :: xs
        exact congrArg (x :: ·) ih
      | cons r2 rs2 =>
        show (x :: h1) ++ c :: joinChar c (r2 :: rs2) = x :: xs
        rw [← ih]
        rfl

theorem splitOnChar_length (c : Char) (l : List Char) :
    (splitOnChar c l).length = l.count c + 1 := by
  suffices h : ∀ m : List Char, (splitOnCharAux c m).2.length = m.count c by
    simp [splitOnChar, h l]
  intro m
  induction m with
  | nil => simp [splitOnCharAux]
  | cons x xs ih =>
    by_cases hx : x = c
    · subst hx
      simp [splitOnCharAux, List.count_cons, ih]
    · simp [splitOnCharAux, if_neg hx, List.count_cons, hx, ih]

theorem pyStrip_space_cons (l : List Char) : pyStrip (' ' :: l) = pyStrip l := by
  simp [pyStrip, List.dropWhile_cons, isPySpace]

/-! ### Lemmas about `parse_message` -/

theorem parseLoop_cons_ne {line : String} (rest : List String)
    (hdrs : List (String × String)) (index : Nat) (h : ¬line = "") :
    parseLoop (line :: rest) hdrs index =
      match splitOnChar ':' line.data with
      | [key, val] => parseLoop rest (dictInsert hdrs ⟨pyStrip key⟩ ⟨pyStrip val⟩) (index + 1)
      | _ => none := by
  simp only [parseLoop]
  rw [if_neg h]

theorem parseLoop_isSome_iff (lines : List String) (hdrs : List (String × String)) (index : Nat) :
    (parseLoop lines hdrs index).isSome = true ↔
      ∀ l ∈ lines.takeWhile (fun s => s ≠ ""), (splitOnChar ':' l.data).length = 2 := by
  induction lines generalizing hdrs index with
  | nil => simp [parseLoop]
  | cons line rest ih =>
    by_cases hl : line = ""
    · subst hl
      simp [parseLoop, List.takeWhile_cons]
    · rw [parseLoop_cons_ne rest hdrs index hl]
      have htw : (line :: rest).takeWhile (fun s => s ≠ "") =
          line :: rest.takeWhile (fun s => s ≠ "") := by
        simp [List.takeWhile_cons, hl]
      rw [htw]
      rcases h2 : (splitOnCharAux ':' line.data).2 with _ | ⟨v, vs⟩
      · have hs : splitOnChar ':' line.data = [(splitOnCharAux ':' line.data).1] := by
          simp [splitOnChar, h2]
        rw [hs]
        constructor
        · intro hsome
          exact absurd hsome (by simp)
        · intro hall
          have h1 := hall line (List.mem_cons_self _ _)
          rw [hs] at h1
          simp at h1
      · rcases vs with _ | ⟨w, ws⟩
        · have hs : splitOnChar ':' line.data = [(splitOnCharAux ':' line.data).1, v] := by
            simp [splitOnChar, h2]
          rw [hs]
          simp only [List.mem_cons, forall_eq_or_imp, hs, List.length_cons, List.length_nil]
          rw [ih]
          simp
        · have hs : splitOnChar ':' line.data =
              (splitOnCharAux ':' line.data).1 :: v :: w :: ws := by
            simp [splitOnChar, h2]
          rw [hs]
          constructor
          · intro hsome
            exact absurd hsome (by simp)
          · intro hall
            have h1 := hall line (List.mem_cons_self _ _)
            rw [hs] at h1
            simp at h1

theorem parse_message_isSome_eq (msg : String) :
    (parse_message msg).isSome = (parseLoop (pySplitLines msg) [] 1).isSome := by
  cases hp : parseLoop (pySplitLines msg) [] 1 with
  | none => simp [parse_message, hp]
  | some p => cases p; simp [parse_message, hp]

/-- Parsing succeeds exactly when every header-block line contains
exactly one colon. -/
theorem parse_message_isSome_iff (msg : String) :
    (parse_message msg).isSome = true ↔
      ∀ l ∈ headerBlock msg, l.data.count ':' = 1 := by
  rw [parse_message_isSome_eq, parseLoop_isSome_iff]
  unfold headerBlock
  constructor
  · intro h l hl
    have := h l hl
    rw [splitOnChar_length] at this
    omega
  · intro h l hl
    rw [splitOnChar_length, h l hl]

theorem parseLoop_no_empty (lines : List String) (h : "" ∉ lines) :
    ∀ hdrs index hdrs2 i, parseLoop lines hdrs index = some (hdrs2, i) →
      i = index + lines.length := by
  induction lines with
  | nil =>
    intro hdrs index hdrs2 i hp
    simp only [parseLoop, Option.some.injEq, Prod.mk.injEq] at hp
    simp [← hp.2]
  | cons line rest ih =>
    intro hdrs index hdrs2 i hp
    simp only [List.mem_cons, not_or] at h
    rw [parseLoop_cons_ne rest hdrs index (fun he => h.1 he.symm)] at hp
    rcases h2 : (splitOnCharAux ':' line.data).2 with _ | ⟨v, vs⟩
    · rw [show splitOnChar ':' line.data = [(splitOnCharAux ':' line.data).1] by
        simp [splitOnChar, h2]] at hp
      exact absurd hp (by simp)
    · rcases vs with _ | ⟨w, ws⟩
      · rw [show splitOnChar ':' line.data = [(splitOnCharAux ':' line.data).1, v] by
          simp [splitOnChar, h2]] at hp
        have := ih h.2 _ _ _ _ hp
        simp only [List.length_cons]
        omega
      · rw [show splitOnChar ':' line.data =
            (splitOnCharAux ':' line.data).1 :: v :: w :: ws by simp [splitOnChar, h2]] at hp
        exact absurd hp (by simp)

theorem dictInsert_of_not_mem {d : List (String × String)} {k : String}
    (h : k ∉ d.map Prod.fst) (v : String) : dictInsert d k v = d ++ [(k, v)] := by
  have hc : (d.any fun p => p.1 = k) = false := by
    rw [List.any_eq_false]
    intro p hp
    simp only [decide_eq_true_eq]
    intro he
    exact h (List.mem_map.mpr ⟨p, hp, he⟩)
  unfold dictInsert
  rw [hc]
  simp

theorem splitOnChar_serialize_data (H : List (String × String)) (B : String)
    (h : ∀ p ∈ H, '\n' ∉ p.1.data ∧ '\n' ∉ p.2.data) :
    splitOnChar '\n' (serializeMessage H B).data =
      H.map (fun p => p.1.data ++ ':' :: ' ' :: p.2.data) ++ [] :: splitOnChar '\n' B.data := by
  induction H with
  | nil =>
    show splitOnChar '\n' ('\n' :: B.data) = [] :: splitOnChar '\n' B.data
    simpa using splitOnChar_append (c := '\n') (a := []) B.data (by simp)
  | cons p H' ih =>
    have hp := h p (List.mem_cons_self _ _)
    have hd : (serializeMessage (p :: H') B).data =
        (p.1.data ++ ':' :: ' ' :: p.2.data) ++ '\n' :: (serializeMessage H' B).data := by
      simp [serializeMessage, List.append_assoc]
    have hnl : '\n' ∉ p.1.data ++ ':' :: ' ' :: p.2.data := by
      simp [List.mem_append, hp.1, hp.2]
    rw [hd, splitOnChar_append _ hnl, ih (fun q hq => h q (List.mem_cons_of_mem _ hq))]
    simp

theorem pySplitLines_serialize (H : List (String × String)) (B : String)
    (h : ∀ p ∈ H, '\n' ∉ p.1.data ∧ '\n' ∉ p.2.data) :
    pySplitLines (serializeMessage H B) =
      H.map (fun p => (⟨p.1.data ++ ':' :: ' ' :: p.2.data⟩ : String)) ++ "" :: pySplitLines B := by
  unfold pySplitLines
  rw [splitOnChar_serialize_data H B h]
  simp [List.map_map]

theorem parseLoop_serialized (H : List (String × String)) :
    ∀ (rest : List String) (hdrs : List (String × String)) (index : Nat),
    (∀ p ∈ H, ':' ∉ p.1.data ∧ ':' ∉ p.2.data) →
    (∀ p ∈ H, pyStrip p.1.data = p.1.data ∧ pyStrip p.2.data = p.2.data) →
    ((hdrs ++ H).map Prod.fst).Nodup →
    parseLoop (H.map (fun p => (⟨p.1.data ++ ':' :: ' ' :: p.2.data⟩ : String)) ++ "" :: rest)
        hdrs index = some (hdrs ++ H, index + H.length) := by
  induction H with
  | nil =>
    intro rest hdrs index _ _ _
    simp [parseLoop]
  | cons p H' ih =>
    intro rest hdrs index hcol hstrip hnd
    have hcolp := hcol p (List.mem_cons_self _ _)
    have hstripp := hstrip p (List.mem_cons_self _ _)
    have hline : ¬(⟨p.1.data ++ ':' :: ' ' :: p.2.data⟩ : String) = "" := by
      intro he
      have hdata : p.1.data ++ ':' :: ' ' :: p.2.data = [] := congrArg String.data he
      simp at hdata
    rw [List.map_cons, List.cons_append, parseLoop_cons_ne _ _ _ hline]
    have hsplit : splitOnChar ':' (⟨p.1.data ++ ':' :: ' ' :: p.2.data⟩ : String).data
        = [p.1.data, ' ' :: p.2.data] := by
      show splitOnChar ':' (p.1.data ++ ':' :: ' ' :: p.2.data) = _
      rw [splitOnChar_append _ hcolp.1, splitOnChar_of_not_mem (by simp [hcolp.2])]
    rw [hsplit]
    show parseLoop _ (dictInsert hdrs ⟨pyStrip p.1.data⟩ ⟨pyStrip (' ' :: p.2.data)⟩)
        (index + 1) = _
    rw [pyStrip_space_cons, hstripp.1, hstripp.2]
    have hp1 : p.1 ∉ hdrs.map Prod.fst := by
      rw [List.map_append, List.nodup_append] at hnd
      intro hmem
      exact hnd.2.2 hmem (by simp)
    have hins : dictInsert hdrs (⟨p.1.data⟩ : String) (⟨p.2.data⟩ : String)
        = hdrs ++ [p] := dictInsert_of_not_mem hp1 _
    have ihx := ih rest (hdrs ++ [p]) (index + 1)
      (fun q hq => hcol q (List.mem_cons_of_mem _ hq))
      (fun q hq => hstrip q (List.mem_cons_of_mem _ hq))
      (by simpa [List.append_assoc] using hnd)
    rw [hins, ihx]
    simp only [Option.some.injEq, Prod.mk.injEq, List.length_cons]
    constructor
    · simp [List.append_assoc]
    · omega

theorem drop_append_cons_empty (A L : List String) :
    (A ++ "" :: L).drop (A.length + 1) = L := by
  have h1 : A ++ "" :: L = (A ++ [""]) ++ L := by simp
  have h2 := List.drop_left (A ++ [""]) L
  rw [List.length_append] at h2
  rw [h1]
  exact h2

theorem pySplitLines_map_data (B : String) :
    (pySplitLines B).map String.data = splitOnChar '\n' B.data := by
  unfold pySplitLines
  rw [List.map_map]
  exact List.map_id _

theorem parse_message_eq_of (msg : String) (hdrs : List (String × String)) (index : Nat)
    (h : parseLoop (pySplitLines msg) [] 1 = some (hdrs, index)) :
    parse_message msg =
      some (hdrs, ⟨joinChar '\n' (((pySplitLines msg).drop index).map String.data)⟩) := by
  simp [parse_message, h]

theorem parse_message_eq_none (msg : String)
    (h : parseLoop (pySplitLines msg) [] 1 = none) : parse_message msg = none := by
  simp [parse_message, h]

/-! ### Claim C1: serialize/parse round trip -/

/-- C1 counterexample: the round trip fails as stated. For the non-empty
header mapping `H = [("A", "b:c")]`, whose key contains no colon, and the
body `""`, serializing and parsing does not reproduce `(H, B)`: the value
`"b:c"` makes `line.split(':')` produce three parts, so `parse_message`
raises (`none`), refuting the claim that only keys need to be colon-free. -/
theorem c1_counterexample :
    parse_message (serializeMessage [("A", "b:c")] "") = none ∧
    (∀ p ∈ [(("A" : String), ("b:c" : String))], ':' ∉ p.1.data) ∧
    serializeMessage [("A", "b:c")] "" = "A: b:c\n\n" := by
  refine ⟨by decide, by decide, by decide⟩

/-- C1 (amended): for every non-empty header mapping `H` with distinct
keys, whose keys and values contain no colon and no newline and carry no
leading/trailing whitespace, and every body `B`, serializing `H` as one
`"Key: Value\n"` line per entry, then a blank line, then `B`, and parsing
the result with `parse_message` yields exactly the header mapping `H`
(same keys, same values, insertion order preserved) and exactly the body
`B`. -/
theorem c1_roundtrip_amended (H : List (String × String)) (B : String)
    (_hne : H ≠ []) (hnd : (H.map Prod.fst).Nodup)
    (hcol : ∀ p ∈ H, ':' ∉ p.1.data ∧ ':' ∉ p.2.data)
    (hnl : ∀ p ∈ H, '\n' ∉ p.1.data ∧ '\n' ∉ p.2.data)
    (hstrip : ∀ p ∈ H, pyStrip p.1.data = p.1.data ∧ pyStrip p.2.data = p.2.data) :
    parse_message (serializeMessage H B) = some (H, B) := by
  have hlines := pySplitLines_serialize H B hnl
  have hloop := parseLoop_serialized H (pySplitLines B) [] 1 hcol hstrip (by simpa using hnd)
  rw [← hlines] at hloop
  have heq := parse_message_eq_of (serializeMessage H B) ([] ++ H) (1 + H.length) hloop
  rw [heq, hlines]
  have hdrop := drop_append_cons_empty
    (H.map (fun p => (⟨p.1.data ++ ':' :: ' ' :: p.2.data⟩ : String))) (pySplitLines B)
  rw [List.length_map] at hdrop
  rw [Nat.add_comm 1 H.length, hdrop, pySplitLines_map_data, joinChar_splitOnChar]
  rfl

/-- C1 witness: the amended round trip at a concrete input. -/
theorem c1_roundtrip_amended_witness :
    parse_message (serializeMessage [("Subject", "Hi Ann"), ("To", "ann")] "Hello Ann!\n\nBye.")
      = some ([("Subject", "Hi Ann"), ("To", "ann")], "Hello Ann!\n\nBye.") :=
  c1_roundtrip_amended [("Subject", "Hi Ann"), ("To", "ann")] "Hello Ann!\n\nBye."
    (by decide) (by decide) (by decide) (by decide) (by decide)

/-! ### Claim C6: input with no empty line -/

/-- C6: for every input text containing no empty line at all,
`parse_message` treats every line as a header line and returns an empty
body: whenever parsing succeeds the body is `""`, and parsing succeeds
exactly when every line of the input (not merely a prefix) is a valid
header line (contains exactly one colon). -/
theorem c6_no_empty_line (msg : String) (h : "" ∉ pySplitLines msg) :
    (∀ hb, parse_message msg = some hb → hb.2 = "") ∧
    ((parse_message msg).isSome = true ↔ ∀ l ∈ pySplitLines msg, l.data.count ':' = 1) := by
  constructor
  · intro hb hsome
    rcases hp : parseLoop (pySplitLines msg) [] 1 with _ | ⟨hdrs2, i⟩
    · rw [parse_message_eq_none msg hp] at hsome
      exact absurd hsome (by simp)
    · have hi := parseLoop_no_empty _ h _ _ _ _ hp
      have heq := parse_message_eq_of msg hdrs2 i hp
      rw [heq] at hsome
      have hdrop : (pySplitLines msg).drop i = [] := by
        apply List.drop_eq_nil_of_le
        omega
      rw [hdrop] at hsome
      cases hsome
      rfl
  · rw [parse_message_isSome_iff]
    have hhb : headerBlock msg = pySplitLines msg := by
      unfold headerBlock
      rw [List.takeWhile_eq_self_iff]
      intro l hl
      simp only [ne_eq, decide_eq_true_eq]
      intro he
      subst he
      exact h hl
    rw [hhb]

/-- C6 witness: a concrete input with no empty line. -/
theorem c6_no_empty_line_witness :
    ("" ∉ pySplitLines "Subject: hi\nTo: ann") ∧
    (∀ hb, parse_message "Subject: hi\nTo: ann" = some hb → hb.2 = "") ∧
    ((parse_message "Subject: hi\nTo: ann").isSome = true ↔
      ∀ l ∈ pySplitLines "Subject: hi\nTo: ann", l.data.count ':' = 1) :=
  ⟨by decide, (c6_no_empty_line "Subject: hi\nTo: ann" (by decide)).1,
    (c6_no_empty_line "Subject: hi\nTo: ann" (by decide)).2⟩

/-! ### Claim C2: when parsing fails -/

/-- C2 counterexample: the input `"a:b:c"` has a single header-block line
and that line contains a colon, yet `parse_message` fails — because
`line.split(':')` yields three parts, not two, so the unpacking
`key, val = ...` raises. This refutes the claim's second half (``for
every input whose header-block lines each contain a colon, it does not
fail''). -/
theorem c2_counterexample :
    (∀ l ∈ headerBlock "a:b:c", ':' ∈ l.data) ∧ parse_message "a:b:c" = none := by
  refine ⟨by decide, by decide⟩

/-- C2 (amended): `parse_message` fails exactly when some header-block
line (a line before the first empty line) does not contain exactly one
colon; in particular it fails on a line with no colon, but it also fails
on a line with two or more colons. -/
theorem c2_parse_fails_iff (msg : String) :
    (parse_message msg).isSome = true ↔ ∀ l ∈ headerBlock msg, l.data.count ':' = 1 :=
  parse_message_isSome_iff msg

/-- C2 witness: both directions of the characterization at concrete
inputs. -/
theorem c2_parse_fails_iff_witness :
    (parse_message "A: b\n\nbody").isSome = true ∧
    ¬(∀ l ∈ headerBlock "nocolon\n\nbody", l.data.count ':' = 1) ∧
    ¬(parse_message "nocolon\n\nbody").isSome = true :=
  ⟨(c2_parse_fails_iff "A: b\n\nbody").mpr (by decide), by decide,
    fun hs => absurd ((c2_parse_fails_iff "nocolon\n\nbody").mp hs) (by decide)⟩

/-! ### Claim C3: header lines are split on the first colon -/

/-- C3 counterexample: the claim says a header line whose value contains
additional colons parses successfully (split on the first colon only).
In the code `line.split(':')` splits on every colon and the two-variable
unpacking raises, so `"k: a:b"` — a well-formed line under the claim —
makes parsing fail. -/
theorem c3_counterexample :
    headerBlock "k: a:b\n\nB" = ["k: a:b"] ∧ parse_message "k: a:b\n\nB" = none := by
  refine ⟨by decide, by decide⟩

/-- C3 (amended): a header-block line must contain exactly one colon;
it is split at that colon and both sides are trimmed of surrounding
whitespace (Python `strip`). For any key and value texts without colons
or newlines, a message starting with the line `key:value` parses to the
single header `(strip key, strip value)`. -/
theorem c3_split_and_trim (k v B : String)
    (hck : ':' ∉ k.data) (hcv : ':' ∉ v.data)
    (hnk : '\n' ∉ k.data) (hnv : '\n' ∉ v.data) :
    parse_message (⟨k.data ++ ':' :: v.data ++ '\n' :: '\n' :: B.data⟩ : String) =
      some ([(⟨pyStrip k.data⟩, ⟨pyStrip v.data⟩)], B) := by
  have hassoc : k.data ++ ':' :: v.data ++ '\n' :: '\n' :: B.data =
      (k.data ++ ':' :: v.data) ++ '\n' :: ('\n' :: B.data) := by
    simp
  have hnl : '\n' ∉ k.data ++ ':' :: v.data := by
    simp [List.mem_append, hnk, hnv]
  have hlines : pySplitLines (⟨k.data ++ ':' :: v.data ++ '\n' :: '\n' :: B.data⟩ : String) =
      (⟨k.data ++ ':' :: v.data⟩ : String) :: "" :: pySplitLines B := by
    unfold pySplitLines
    show (splitOnChar '\n' (k.data ++ ':' :: v.data ++ '\n' :: '\n' :: B.data)).map String.mk = _
    have h2 : splitOnChar '\n' ('\n' :: B.data) = [] :: splitOnChar '\n' B.data := by
      simpa using splitOnChar_append (c := '\n') (a := []) B.data (by simp)
    rw [hassoc, splitOnChar_append _ hnl, h2]
    rfl
  have hline_ne : ¬(⟨k.data ++ ':' :: v.data⟩ : String) = "" := by
    intro he
    have hdata : k.data ++ ':' :: v.data = [] := congrArg String.data he
    simp at hdata
  have hsplit : splitOnChar ':' (⟨k.data ++ ':' :: v.data⟩ : String).data
      = [k.data, v.data] := by
    show splitOnChar ':' (k.data ++ ':' :: v.data) = _
    rw [splitOnChar_append _ hck, splitOnChar_of_not_mem hcv]
  have hloop : parseLoop (pySplitLines (⟨k.data ++ ':' :: v.data ++ '\n' :: '\n' :: B.data⟩ :
      String)) [] 1 = some ([(⟨pyStrip k.data⟩, ⟨pyStrip v.data⟩)], 2) := by
    rw [hlines, parseLoop_cons_ne _ _ _ hline_ne, hsplit]
    show parseLoop ("" :: pySplitLines B) (dictInsert [] ⟨pyStrip k.data⟩ ⟨pyStrip v.data⟩) 2
        = _
    simp [parseLoop, dictInsert]
  rw [parse_message_eq_of _ _ _ hloop, hlines]
  show some (_, (⟨joinChar '\n' ((pySplitLines B).map String.data)⟩ : String)) = _
  rw [pySplitLines_map_data, joinChar_splitOnChar]

/-- C3 witness: a line with surrounding whitespace on both sides of its
single colon is split there and trimmed. -/
theorem c3_split_and_trim_witness :
    parse_message (⟨("Subject ").data ++ ':' :: ("  hi there ").data ++
        '\n' :: '\n' :: ("body").data⟩ : String) =
      some ([(⟨pyStrip ("Subject ").data⟩, ⟨pyStrip ("  hi there ").data⟩)], "body") :=
  c3_split_and_trim "Subject " "  hi there " "body" (by decide) (by decide) (by decide)
    (by decide)

/-! ### Claim C4: temporary-file cleanup in `edit_template` -/

/-- C4 counterexample: when the external editor exits with a non-zero
status (here exit status 1), `subprocess.check_call` raises before
`os.remove(path)` is reached and the temporary file is NOT deleted — the
claim that it is deleted on every exit path is false of the code, which
has no `finally`-equivalent cleanup. -/
theorem c4_counterexample :
    (edit_template "text" 1 true id).output = Except.error EditErr.calledProcessError ∧
    (edit_template "text" 1 true id).tmpRemoved = false := by
  refine ⟨rfl, rfl⟩

/-- C4 (amended): the temporary file created by `edit_template` is removed
exactly on the success path — when the editor exits with status 0 and the
read-back succeeds; if the editor fails or the read-back fails, the
exception propagates before `os.remove` and the file is left behind. -/
theorem c4_tmp_removed_iff (template : String) (editorExit : Nat) (readOk : Bool)
    (edit : String → String) :
    (edit_template template editorExit readOk edit).tmpRemoved = true ↔
      (editorExit = 0 ∧ readOk = true) := by
  unfold edit_template
  by_cases he : editorExit = 0
  · subst he
    cases readOk <;> simp
  · simp [he]

/-- C4 witness: the amended statement at a concrete successful edit. -/
theorem c4_tmp_removed_iff_witness :
    (edit_template "text" 0 true id).tmpRemoved = true ↔ ((0 : Nat) = 0 ∧ true = true) :=
  c4_tmp_removed_iff "text" 0 true id

/-! ### Claim C7: the confirmation gate -/

/-- C7: the confirmation gate `yes_no`, for any valid default (`None`,
`"yes"` or `"no"`): with default `"no"` an empty input returns `False`;
an input `"y"` or `"Y"` returns `True` regardless of the default; more
generally any input whose lowercasing is a recognized token returns that
token's value; and an unrecognized input (that is not an
empty-input-accepts-default) repeats the prompt, i.e. the gate behaves on
the remaining input stream as if the unrecognized input had not been
supplied. -/
theorem c7_yes_no_spec :
    (∀ rest : List String, yes_no (some "no") ("" :: rest) = Except.ok false) ∧
    (∀ (d : Option String) (rest : List String),
      (d = none ∨ d = some "yes" ∨ d = some "no") →
      yes_no d ("y" :: rest) = Except.ok true ∧ yes_no d ("Y" :: rest) = Except.ok true) ∧
    (∀ (d : Option String) (c : String) (rest : List String) (b : Bool),
      (d = none ∨ d = some "yes" ∨ d = some "no") →
      validAnswer (pyLower c) = some b → yes_no d (c :: rest) = Except.ok b) ∧
    (∀ (d : Option String) (c : String) (rest : List String),
      (d = none ∨ d = some "yes" ∨ d = some "no") →
      validAnswer (pyLower c) = none → ¬(d.isSome ∧ pyLower c = "") →
      yes_no d (c :: rest) = yes_no d rest) := by
  refine ⟨fun rest => rfl, ?_, ?_, ?_⟩
  · intro d rest hd
    rcases hd with rfl | rfl | rfl <;> exact ⟨rfl, rfl⟩
  · intro d c rest b hd hc
    have hne : ¬pyLower c = "" := by
      intro he
      rw [he] at hc
      simp [validAnswer] at hc
    rcases hd with rfl | rfl | rfl <;>
      simp [yes_no, ynPrompt, ynLoop, hne, hc]
  · intro d c rest hd hc hne
    rcases hd with rfl | rfl | rfl
    · simp [yes_no, ynPrompt, ynLoop, hc]
    · have hne2 : ¬pyLower c = "" := fun he => hne ⟨rfl, he⟩
      simp [yes_no, ynPrompt, ynLoop, hne2, hc]
    · have hne2 : ¬pyLower c = "" := fun he => hne ⟨rfl, he⟩
      simp [yes_no, ynPrompt, ynLoop, hne2, hc]

/-- C7 witness: concrete runs of the gate — empty input with default
`"no"`, the inputs `"y"`, `"Y"` and `"YES"`, and an unrecognized input
followed by `"n"`. -/
theorem c7_yes_no_spec_witness :
    yes_no (some "no") [""] = Except.ok false ∧
    yes_no none ["y"] = Except.ok true ∧
    yes_no (some "yes") ["Y"] = Except.ok true ∧
    yes_no (some "no") ["YES"] = Except.ok true ∧
    yes_no (some "no") ["maybe", "n"] = Except.ok false :=
  ⟨c7_yes_no_spec.1 [],
    (c7_yes_no_spec.2.1 none [] (Or.inl rfl)).1,
    (c7_yes_no_spec.2.1 (some "yes") [] (Or.inr (Or.inl rfl))).2,
    c7_yes_no_spec.2.2.1 (some "no") "YES" [] true (Or.inr (Or.inr rfl)) (by decide),
    by
      rw [c7_yes_no_spec.2.2.2 (some "no") "maybe" ["n"] (Or.inr (Or.inr rfl)) (by decide)
        (by decide)]
      exact c7_yes_no_spec.2.2.1 (some "no") "n" [] false (Or.inr (Or.inr rfl)) (by decide)⟩

/-! ### Claim C8: the missing-variables computation -/

/-- C8 counterexample: the missing-variables operation
`tmpl_vars - set(keys)` is NOT commutative. With the template-variable
set `{"name"}` and an empty CLI key set, the difference one way is
`{"name"}` and the other way is `∅`. -/
theorem c8_counterexample :
    missingVarsSets {"name"} ∅ ≠ missingVarsSets ∅ {"name"} ∧
    missingVarsSets {"name"} ∅ = {"name"} ∧
    missingVarsSets ∅ {"name"} = ∅ := by
  refine ⟨by decide, by decide, by decide⟩

/-- C8 (amended): for every set of template-referenced names `T` and
CLI-supplied mapping `C`, the missing-variables computation returns
exactly the set difference `T` minus the keys of `C`: a name is missing
iff it is referenced by the template and not a key of `C`. The
computation is a pure function of its two arguments (the model is
functional, so it cannot mutate them); it is not commutative in general. -/
theorem c8_missing_vars_is_sdiff (T : Finset String) (C : List (String × String))
    (x : String) :
    x ∈ missingVars T C ↔ (x ∈ T ∧ ∀ v, (x, v) ∉ C) := by
  unfold missingVars missingVarsSets
  simp only [Finset.mem_sdiff, List.mem_toFinset, List.mem_map, and_congr_right_iff]
  intro _
  constructor
  · intro h v hv
    exact h ⟨(x, v), hv, rfl⟩
  · rintro h ⟨p, hp, he⟩
    apply h p.2
    have hpx : p = (x, p.2) := by
      cases p
      simp_all
    rwa [hpx] at hp

/-- C8 witness: the membership characterization at a concrete template
variable set and CLI mapping. -/
theorem c8_missing_vars_is_sdiff_witness :
    "name" ∈ missingVars {"name"} [("other", "x")] ↔
      ("name" ∈ ({"name"} : Finset String) ∧
        ∀ v, (("name", v) : String × String) ∉ [(("other" : String), ("x" : String))]) :=
  c8_missing_vars_is_sdiff {"name"} [("other", "x")] "name"

/-! ### Lemmas about `dictFind`, `dictInsert` and `assignPlaceholders` -/

theorem dictFind_map_replace_self (d : List (String × String)) (k v : String)
    (h : ∃ p ∈ d, p.1 = k) :
    dictFind (d.map fun p => if p.1 = k then (k, v) else p) k = some v := by
  induction d with
  | nil => simp at h
  | cons q rest ih =>
    by_cases hq : q.1 = k
    · simp only [dictFind, List.map_cons, if_pos hq]
      rw [List.find?_cons_of_pos _ (by simp)]
      rfl
    · simp only [dictFind, List.map_cons, if_neg hq] at ih ⊢
      rw [List.find?_cons_of_neg _ (by simpa using hq)]
      apply ih
      rcases h with ⟨p, hp, he⟩
      rcases List.mem_cons.mp hp with rfl | hpr
      · exact absurd he hq
      · exact ⟨p, hpr, he⟩

theorem dictFind_append_single_self (d : List (String × String)) (k v : String)
    (h : ∀ p ∈ d, p.1 ≠ k) :
    dictFind (d ++ [(k, v)]) k = some v := by
  induction d with
  | nil =>
    simp only [dictFind, List.nil_append]
    rw [List.find?_cons_of_pos _ (by simp)]
    rfl
  | cons q rest ih =>
    simp only [dictFind, List.cons_append] at ih ⊢
    rw [List.find?_cons_of_neg _ (by simpa using h q (List.mem_cons_self _ _))]
    exact ih (fun p hp => h p (List.mem_cons_of_mem _ hp))

theorem dictFind_map_replace_ne (d : List (String × String)) (k v k' : String)
    (h : k' ≠ k) :
    dictFind (d.map fun p => if p.1 = k then (k, v) else p) k' = dictFind d k' := by
  induction d with
  | nil => rfl
  | cons q rest ih =>
    simp only [dictFind] at ih ⊢
    rw [List.map_cons]
    by_cases hq : q.1 = k
    · rw [if_pos hq,
        List.find?_cons_of_neg _ (by simpa using Ne.symm h),
        List.find?_cons_of_neg _ (by simp only [decide_eq_true_eq, hq]; exact Ne.symm h)]
      exact ih
    · rw [if_neg hq]
      by_cases hq' : q.1 = k'
      · rw [List.find?_cons_of_pos _ (by simpa using hq'),
          List.find?_cons_of_pos _ (by simpa using hq')]
      · rw [List.find?_cons_of_neg _ (by simpa using hq'),
          List.find?_cons_of_neg _ (by simpa using hq')]
        exact ih

theorem dictFind_append_single_ne (d : List (String × String)) (k v k' : String)
    (h : k' ≠ k) :
    dictFind (d ++ [(k, v)]) k' = dictFind d k' := by
  induction d with
  | nil =>
    simp only [dictFind, List.nil_append]
    rw [List.find?_cons_of_neg _ (by simpa using Ne.symm h)]
  | cons q rest ih =>
    simp only [dictFind, List.cons_append] at ih ⊢
    by_cases hq' : q.1 = k'
    · rw [List.find?_cons_of_pos _ (by simpa using hq'),
        List.find?_cons_of_pos _ (by simpa using hq')]
    · rw [List.find?_cons_of_neg _ (by simpa using hq'),
        List.find?_cons_of_neg _ (by simpa using hq')]
      exact ih

theorem dictFind_dictInsert_self (d : List (String × String)) (k v : String) :
    dictFind (dictInsert d k v) k = some v := by
  unfold dictInsert
  by_cases hk : (d.any fun p => p.1 = k) = true
  · rw [if_pos hk]
    apply dictFind_map_replace_self
    rw [List.any_eq_true] at hk
    obtain ⟨p, hp, he⟩ := hk
    exact ⟨p, hp, by simpa using he⟩
  · rw [if_neg hk]
    apply dictFind_append_single_self
    intro p hp he
    exact hk (List.any_eq_true.mpr ⟨p, hp, by simpa using he⟩)

theorem dictFind_dictInsert_ne (d : List (String × String)) (k v k' : String)
    (h : k' ≠ k) : dictFind (dictInsert d k v) k' = dictFind d k' := by
  unfold dictInsert
  split
  · exact dictFind_map_replace_ne d k v k' h
  · exact dictFind_append_single_ne d k v k' h

theorem dictFind_assignPlaceholders_not_mem (missing : List String)
    (m : List (String × String)) (v : String) (h : v ∉ missing) :
    dictFind (assignPlaceholders m missing) v = dictFind m v := by
  induction missing generalizing m with
  | nil => rfl
  | cons w rest ih =>
    simp only [List.mem_cons, not_or] at h
    show dictFind (assignPlaceholders (dictInsert m w (placeholderValue w)) rest) v = _
    rw [ih _ h.2, dictFind_dictInsert_ne _ _ _ _ h.1]

theorem dictFind_assignPlaceholders (missing : List String)
    (m : List (String × String)) (v : String) (h : v ∈ missing) :
    dictFind (assignPlaceholders m missing) v = some (placeholderValue v) := by
  induction missing generalizing m with
  | nil => simp at h
  | cons w rest ih =>
    show dictFind (assignPlaceholders (dictInsert m w (placeholderValue w)) rest) v = _
    by_cases hv : v ∈ rest
    · exact ih _ hv
    · have hw : v = w := by
        rcases List.mem_cons.mp h with hw | hvr
        · exact hw
        · exact absurd hvr hv
      subst hw
      rw [dictFind_assignPlaceholders_not_mem rest _ v hv, dictFind_dictInsert_self]

theorem renderTemplate_append (t1 t2 : List Chunk) (m : List (String × String)) :
    (renderTemplate (t1 ++ t2) m).data =
      (renderTemplate t1 m).data ++ (renderTemplate t2 m).data := by
  simp [renderTemplate, List.map_append]

theorem string_data_append (a b : String) : (a ++ b).data = a.data ++ b.data := rfl

/-! ### Claim C5: interactive placeholders for missing variables -/

/-- C5 counterexample: with the template `{{ name }}` (a single variable
occurrence) and no CLI variables, the interactive placeholder assignment
makes the re-rendered text equal to the literal text `{{ name }}` — that
IS the variable's literal jinja templating syntax, and no marker of the
form `<<name>>` appears anywhere in the output. This refutes the claim
that the rendered output contains a `"<<name>>"`-style marker and not the
variable's literal templating syntax. -/
theorem c5_counterexample :
    renderTemplate [Chunk.var "name"] (assignPlaceholders [] ["name"]) =
      "\x7b\x7b name \x7d\x7d" ∧
    placeholderValue "name" = "\x7b\x7b name \x7d\x7d" ∧
    ¬("<<name>>").data <:+:
      (renderTemplate [Chunk.var "name"] (assignPlaceholders [] ["name"])).data := by
  refine ⟨by decide, by decide, by decide⟩

/-- C5 (amended): in interactive mode each missing variable's value in the
mapping is replaced with the text `"{{ name }}"`, so the re-rendered text
contains the variable's own jinja templating syntax `{{ name }}` as the
human-editable marker at each occurrence of that variable (not a
`"<<name>>"`-style marker distinct from the templating syntax). -/
theorem c5_placeholder_amended (m : List (String × String)) (missing : List String)
    (v : String) (pre post : List Chunk) (hv : v ∈ missing) :
    renderTemplate (pre ++ Chunk.var v :: post) (assignPlaceholders m missing) =
      renderTemplate pre (assignPlaceholders m missing) ++ placeholderValue v ++
      renderTemplate post (assignPlaceholders m missing) := by
  have hfind := dictFind_assignPlaceholders missing m v hv
  have h1 : (renderTemplate [Chunk.var v] (assignPlaceholders m missing)).data
      = (placeholderValue v).data := by
    simp [renderTemplate, hfind]
  apply String.ext
  have hsplit : pre ++ Chunk.var v :: post = (pre ++ [Chunk.var v]) ++ post := by simp
  rw [hsplit, renderTemplate_append, renderTemplate_append, h1,
    string_data_append, string_data_append]

/-- C5 witness: the amended statement at the template `Hello {{ name }}!`
with `name` missing. -/
theorem c5_placeholder_amended_witness :
    renderTemplate ([Chunk.lit "Hello "] ++ Chunk.var "name" :: [Chunk.lit "!"])
        (assignPlaceholders [] ["name"]) =
      renderTemplate [Chunk.lit "Hello "] (assignPlaceholders [] ["name"]) ++
        placeholderValue "name" ++
        renderTemplate [Chunk.lit "!"] (assignPlaceholders [] ["name"]) :=
  c5_placeholder_amended [] ["name"] "name" [Chunk.lit "Hello "] [Chunk.lit "!"]
    (by decide)

/-! ### Claim C9: non-interactive mode with missing variables -/

/-- C9: in non-interactive mode (and not list mode), when the template
references at least one variable not supplied on the CLI, `main` returns
1 (a non-zero exit status, the missing-variables error path) and the
transmitter `send_message` is never invoked. -/
theorem c9_noninteractive_missing (args : Args) (tmplVars : Finset String)
    (tmpl : List Chunk) (sigText : String) (editorExit : Nat) (readOk : Bool)
    (edit : String → String) (ynInputs : List String) (smtpOk : Bool)
    (hlist : args.list = false) (hni : args.noninteractive = true)
    (hmiss : (missingVars tmplVars args.jinja_vars).Nonempty) :
    (mainRun args tmplVars tmpl sigText editorExit readOk edit ynInputs smtpOk).1
        = Outcome.exit 1 ∧
    (mainRun args tmplVars tmpl sigText editorExit readOk edit ynInputs smtpOk).1
        ≠ Outcome.exit 0 ∧
    Event.sent ∉
      (mainRun args tmplVars tmpl sigText editorExit readOk edit ynInputs smtpOk).2 := by
  have h : mainRun args tmplVars tmpl sigText editorExit readOk edit ynInputs smtpOk
      = (Outcome.exit 1, []) := by
    simp [mainRun, hlist, hni, hmiss]
  rw [h]
  exact ⟨rfl, by simp, by simp⟩

/-- C9 witness: a concrete non-interactive invocation whose template
references `name` with no CLI variables. -/
theorem c9_noninteractive_missing_witness :
    (mainRun ⟨false, true, false, false, []⟩ {"name"} [Chunk.var "name"] "" 0 true id []
        true).1 = Outcome.exit 1 ∧
    (mainRun ⟨false, true, false, false, []⟩ {"name"} [Chunk.var "name"] "" 0 true id []
        true).1 ≠ Outcome.exit 0 ∧
    Event.sent ∉ (mainRun ⟨false, true, false, false, []⟩ {"name"} [Chunk.var "name"] "" 0
        true id [] true).2 :=
  c9_noninteractive_missing ⟨false, true, false, false, []⟩ {"name"} [Chunk.var "name"]
    "" 0 true id [] true rfl rfl (by decide)

/-! ### Claim C10: dry run in interactive mode skips the confirmation gate -/

/-- C10: in interactive mode with dry-run set (and not list mode), the
confirmation gate `yes_no` is never invoked and `send_message` is never
invoked; when the editor round trip succeeds the edited message is still
printed (the `printed` event) and still parsed — the run ends with exit
status 0 exactly when `parse_message` succeeds on the edited message, and
crashes when it fails. -/
theorem c10_dryrun_skips_confirmation (args : Args) (tmplVars : Finset String)
    (tmpl : List Chunk) (sigText : String) (editorExit : Nat) (readOk : Bool)
    (edit : String → String) (ynInputs : List String) (smtpOk : Bool)
    (hlist : args.list = false) (hni : args.noninteractive = false)
    (hdry : args.dryrun = true) :
    (∀ q d, Event.yesNoInvoked q d ∉
      (mainRun args tmplVars tmpl sigText editorExit readOk edit ynInputs smtpOk).2) ∧
    Event.sent ∉
      (mainRun args tmplVars tmpl sigText editorExit readOk edit ynInputs smtpOk).2 ∧
    (editorExit = 0 → readOk = true →
      mainRun args tmplVars tmpl sigText editorExit readOk edit ynInputs smtpOk =
        ((if (parse_message (edit (interactiveDraft args tmplVars tmpl sigText))).isSome
            = true then Outcome.exit 0 else Outcome.crash),
          [Event.editorInvoked (interactiveDraft args tmplVars tmpl sigText),
           Event.printed (edit (interactiveDraft args tmplVars tmpl sigText))])) := by
  by_cases he : editorExit = 0
  · by_cases hr : readOk = true
    · have hmain : mainRun args tmplVars tmpl sigText editorExit readOk edit ynInputs
          smtpOk =
          ((if (parse_message (edit (interactiveDraft args tmplVars tmpl sigText))).isSome
              = true then Outcome.exit 0 else Outcome.crash),
            [Event.editorInvoked (interactiveDraft args tmplVars tmpl sigText),
             Event.printed (edit (interactiveDraft args tmplVars tmpl sigText))]) := by
        subst he
        subst hr
        rcases hp : parse_message (edit (interactiveDraft args tmplVars tmpl sigText))
          with _ | p
        · simp [mainRun, hlist, hni, hdry, edit_template, composeAndSend, hp]
        · simp [mainRun, hlist, hni, hdry, edit_template, composeAndSend, hp]
      refine ⟨?_, ?_, fun _ _ => hmain⟩
      · intro q d
        rw [hmain]
        simp
      · rw [hmain]
        simp
    · have hmain : mainRun args tmplVars tmpl sigText editorExit readOk edit ynInputs
          smtpOk = (Outcome.crash,
            [Event.editorInvoked (interactiveDraft args tmplVars tmpl sigText)]) := by
        subst he
        have hrf : readOk = false := by
          cases readOk
          · rfl
          · exact absurd rfl hr
        subst hrf
        simp [mainRun, hlist, hni, edit_template]
      refine ⟨?_, ?_, fun _ h => absurd h hr⟩
      · intro q d
        rw [hmain]
        simp
      · rw [hmain]
        simp
  · have hmain : mainRun args tmplVars tmpl sigText editorExit readOk edit ynInputs
        smtpOk = (Outcome.crash,
          [Event.editorInvoked (interactiveDraft args tmplVars tmpl sigText)]) := by
      simp [mainRun, hlist, hni, edit_template, he]
    refine ⟨?_, ?_, fun h _ => absurd h he⟩
    · intro q d
      rw [hmain]
      simp
    · rw [hmain]
      simp

/-- C10 witness: a concrete interactive dry-run invocation. -/
theorem c10_dryrun_skips_confirmation_witness :
    (∀ q d, Event.yesNoInvoked q d ∉
      (mainRun ⟨false, false, true, false, [("name", "Ann")]⟩ {"name"}
        [Chunk.lit "Subject: hi\n\nHello ", Chunk.var "name"] "" 0 true id [] true).2) ∧
    Event.sent ∉
      (mainRun ⟨false, false, true, false, [("name", "Ann")]⟩ {"name"}
        [Chunk.lit "Subject: hi\n\nHello ", Chunk.var "name"] "" 0 true id [] true).2 ∧
    ((0 : Nat) = 0 → true = true →
      mainRun ⟨false, false, true, false, [("name", "Ann")]⟩ {"name"}
          [Chunk.lit "Subject: hi\n\nHello ", Chunk.var "name"] "" 0 true id [] true =
        ((if (parse_message (id (interactiveDraft ⟨false, false, true, false,
              [("name", "Ann")]⟩ {"name"}
              [Chunk.lit "Subject: hi\n\nHello ", Chunk.var "name"] ""))).isSome
            = true then Outcome.exit 0 else Outcome.crash),
          [Event.editorInvoked (interactiveDraft ⟨false, false, true, false,
              [("name", "Ann")]⟩ {"name"}
              [Chunk.lit "Subject: hi\n\nHello ", Chunk.var "name"] ""),
           Event.printed (id (interactiveDraft ⟨false, false, true, false,
              [("name", "Ann")]⟩ {"name"}
              [Chunk.lit "Subject: hi\n\nHello ", Chunk.var "name"] ""))])) :=
  c10_dryrun_skips_confirmation ⟨false, false, true, false, [("name", "Ann")]⟩ {"name"}
    [Chunk.lit "Subject: hi\n\nHello ", Chunk.var "name"] "" 0 true id [] true
    rfl rfl rfl

end Automail
